import Mathlib

/-!
Verification of the geometric core of PyMVPA's flat-surface rasterizer
(`mvpa2/misc/plot/flat_surf.py`).

The embedding models numpy float arrays as lists of rationals (`List ℚ`),
so all arithmetic is exact.  Division by zero follows the rational
convention `q / 0 = 0`; every claim settled below supplies hypotheses
(positive ranges, `min_nsteps ≥ 2`) under which no division by zero is
reached, matching the preconditions stated by the specification.

Python `ValueError` raises are modelled by `Except FlatSurfError`.
NaN face-normal components are modelled by `Option`: a face normal
containing an undefined component is `none`, a fully defined one `some v`.

The external `Surface` collaborator (module `mvpa2.support.nibabel.surf`,
not part of the analysed source) is modelled as a record of the data the
core reads from it: `vertices`, `face_normals`, `nodes_on_border_paths`.
The external function `vector_alignment_find_rotation` is modelled as a
parameter `valign : Vec3 → Vec3 → Vec3 → Vec3` taking the average normal,
the target axis, and a vertex to rotate; the source only applies the
resulting rotation to vertices, so this abstraction is faithful.
-/

namespace FlatSurf

/-- A 3-d vector of exact rationals. -/
abbrev Vec3 : Type := ℚ × ℚ × ℚ

/-- The typed failures of the core.  In the Python source all three are
`ValueError`s, distinguished by their message:
`shapeMismatch` is the raise at flat_surf.py lines 69-70,
`emptyInput` is the `ValueError` numpy raises when `np.min`/`np.max`
is applied to a zero-size array, and `flatness` is the raise at
flat_surf.py lines 126-128. -/
inductive FlatSurfError : Type where
  | shapeMismatch : FlatSurfError
  | emptyInput : FlatSurfError
  | flatness : FlatSurfError
deriving DecidableEq

/-- The minimum of a vector (`np.min`), totalised with a junk default for
the empty list (the source raises there; callers below guard emptiness). -/
def listMin (l : List ℚ) : ℚ := l.foldl min (l.headD 0)

/-- The maximum of a vector (`np.max`), totalised like `listMin`. -/
def listMax (l : List ℚ) : ℚ := l.foldl max (l.headD 0)

/-- flat_surf.py line 76: `delta = min(xran, yran) / (min_nsteps - 1)`. -/
def gridDelta (x y : List ℚ) (min_nsteps : ℕ) : ℚ :=
  min (listMax x - listMin x) (listMax y - listMin y) / ((min_nsteps : ℚ) - 1)

/-- flat_surf.py line 77: `xsteps = 1 + np.ceil(xran / delta)`. -/
def xstepsOf (x y : List ℚ) (min_nsteps : ℕ) : ℤ :=
  1 + ⌈(listMax x - listMin x) / gridDelta x y min_nsteps⌉

/-- flat_surf.py line 78: `ysteps = 1 + np.ceil(yran / delta)`. -/
def ystepsOf (x y : List ℚ) (min_nsteps : ℕ) : ℤ :=
  1 + ⌈(listMax y - listMin y) / gridDelta x y min_nsteps⌉

/-- flat_surf.py lines 81-82: `(np.arange(steps) + .5) * delta + mn`. -/
def axisVec (steps : ℤ) (delta mn : ℚ) : List ℚ :=
  (List.range steps.toNat).map (fun (k : ℕ) => ((k : ℚ) + 1/2) * delta + mn)

/-- flat_surf.py lines 50-84, `unstructured_xy2grid_xy_vectors`.
The length-mismatch check (lines 69-70) runs before anything else;
`np.min` on a zero-size array (line 72) is the next possible raise. -/
def unstructured_xy2grid_xy_vectors (x y : List ℚ) (min_nsteps : ℕ) :
    Except FlatSurfError (List ℚ × List ℚ) :=
  if x.length ≠ y.length then Except.error FlatSurfError.shapeMismatch
  else if x.isEmpty then Except.error FlatSurfError.emptyInput
  else
    Except.ok
      (axisVec (xstepsOf x y min_nsteps) (gridDelta x y min_nsteps) (listMin x),
       axisVec (ystepsOf x y min_nsteps) (gridDelta x y min_nsteps) (listMin y))

/-- The data the core reads from the external mesh collaborator.
A `none` entry of `face_normals` models a normal with an undefined
(NaN) component, exactly the rows masked out at flat_surf.py line 120. -/
structure Surface : Type where
  vertices : List Vec3
  face_normals : List (Option Vec3)
  nodes_on_border_paths : List (List ℕ)

/-- Euclidean dot product of two 3-d vectors. -/
def dot3 (a b : Vec3) : ℚ := a.1 * b.1 + a.2.1 * b.2.1 + a.2.2 * b.2.2

/-- flat_surf.py line 120: the face normals whose components are all
defined (`msk = np.all(np.logical_not(np.isnan(face_normals)), 1)`). -/
def validNormals (fns : List (Option Vec3)) : List Vec3 :=
  fns.filterMap (fun n => n)

/-- Modelled from the spec: the external `Surface.nanmean_face_normal`
("average normal: mean of per-face normals, ignoring any undefined
NaN-valued faces", spec section 3).  When no valid face exists the
Python value is NaN; here the junk value of division by zero (`0`)
stands in for it — the flatness check never reads the average in that
case, and the rotation consuming it is abstract. -/
def nanmean_face_normal (fns : List (Option Vec3)) : Vec3 :=
  let v := validNormals fns
  ((v.map (fun n => n.1)).sum / (v.length : ℚ),
   (v.map (fun n => n.2.1)).sum / (v.length : ℚ),
   (v.map (fun n => n.2.2)).sum / (v.length : ℚ))

/-- flat_surf.py lines 123-124:
`abs(1 - abs(np.dot(avg_face_normal, n)))` for one valid normal `n`. -/
def deformationOf (avg n : Vec3) : ℚ := abs (1 - abs (dot3 avg n))

/-- flat_surf.py lines 88-143, `flat_surface2xy`.  The deformation test
(lines 123-128) raises iff some valid normal deviates strictly beyond
`max_deformation`; afterwards the rotation returned by the external
`vector_alignment_find_rotation` (modelled by the parameter `valign`)
is applied to every vertex and the z-coordinate is discarded. -/
def flat_surface2xy (valign : Vec3 → Vec3 → Vec3 → Vec3) (s : Surface)
    (max_deformation : ℚ) : Except FlatSurfError (List ℚ × List ℚ) :=
  if (validNormals s.face_normals).any
      (fun n => decide
        (max_deformation < deformationOf (nanmean_face_normal s.face_normals) n)) then
    Except.error FlatSurfError.flatness
  else
    Except.ok
      ((s.vertices.map (valign (nanmean_face_normal s.face_normals) (0, 0, 1))).map
          (fun v => v.1),
       (s.vertices.map (valign (nanmean_face_normal s.face_normals) (0, 0, 1))).map
          (fun v => v.2.1))

/-- flat_surf.py lines 204-220: the tour across consecutive border pairs.
`j` starts at `pth[-1]`, then for each `i` in `pth` the pair `(i, j)` is
visited and `j` becomes `i`; so the pair list is `pth` zipped with
`last :: pth`.  An empty path would raise `IndexError` at `pth[-1]` in
the source; it produces no pairs here. -/
def path_pairs : List ℕ → List (ℕ × ℕ)
  | [] => []
  | h :: t => (h :: t).zip ((h :: t).getLast (List.cons_ne_nil h t) :: h :: t)

/-- All border pairs of all paths, in visit order. -/
def allPathPairs (pths : List (List ℕ)) : List (ℕ × ℕ) :=
  (pths.map path_pairs).flatten

/-- flat_surf.py line 209: with `p = min(vi2xi[i], vi2xi[j])` and
`q = max(...)`, the columns receiving edge `e` are the integers produced
by `np.arange(np.ceil(p), np.ceil(q))`, i.e. `⌈p⌉ ≤ c < ⌈q⌉`. -/
def inColumnRange (v : ℕ → ℚ) (e : ℕ × ℕ) (c : ℤ) : Bool :=
  decide (⌈min (v e.1) (v e.2)⌉ ≤ c ∧ c < ⌈max (v e.1) (v e.2)⌉)

/-- The segment list `xidx2segments[c]` built at flat_surf.py
lines 200-220: all border pairs registered under column `c`, in
registration order.  A column is a key of the Python dict iff this list
is nonempty. -/
def segmentsAt (v : ℕ → ℚ) (pths : List (List ℕ)) (c : ℤ) : List (ℕ × ℕ) :=
  (allPathPairs pths).filter (fun e => inColumnRange v e c)

/-- flat_surf.py line 239: the PNPOLY crossing test for edge `(i, j)`
at ray position `(xpos, ypos)`:
`ypos < (y[j] - y[i]) * (xpos - x[i]) / (x[j] - x[i]) + y[i]`. -/
def raycast_hit (x y : List ℚ) (xpos ypos : ℚ) (e : ℕ × ℕ) : Bool :=
  decide (ypos <
    (y.getD e.2 0 - y.getD e.1 0) * (xpos - x.getD e.1 0) /
      (x.getD e.2 0 - x.getD e.1 0) + y.getD e.1 0)

/-- flat_surf.py lines 237-241: the parity accumulator `c`, toggled once
per crossing edge, starting from `False`. -/
def pnpolyCell (x y : List ℚ) (segs : List (ℕ × ℕ)) (xpos ypos : ℚ) : Bool :=
  segs.foldl (fun c e => if raycast_hit x y xpos ypos e then !c else c) false

/-- flat_surf.py lines 223-241: the mask, row-major `(yi-index, xi-index)`.
Cells of a column with no registered segments keep their initial `False`
(the `continue` at line 230); every other cell holds the PNPOLY parity. -/
def grid_mask (x y : List ℚ) (v : ℕ → ℚ) (pths : List (List ℕ))
    (xi yi : List ℚ) : List (List Bool) :=
  (List.range yi.length).map (fun jj =>
    (List.range xi.length).map (fun (ii : ℕ) =>
      pnpolyCell x y (segmentsAt v pths (ii : ℤ)) (xi.getD ii 0) (yi.getD jj 0)))

/-- flat_surf.py line 192: `vi2xi = (x - xmin) / delta`, as a pointwise
function of the vertex index. -/
def mkvi2xi (x : List ℚ) (delta : ℚ) : ℕ → ℚ :=
  fun i => (x.getD i 0 - listMin x) / delta

/-- flat_surf.py lines 147-243, `flat_surface2grid_mask`.  `np.min(x)` at
line 188 raises on an empty coordinate array before the grid is built;
`delta` is recovered from the grid as `xi[1] - xi[0]` (line 191). -/
def flat_surface2grid_mask (valign : Vec3 → Vec3 → Vec3 → Vec3) (s : Surface)
    (min_nsteps : ℕ) (max_deformation : ℚ) :
    Except FlatSurfError (List ℚ × List ℚ × List (List Bool) × List ℚ × List ℚ) :=
  match flat_surface2xy valign s max_deformation with
  | Except.error e => Except.error e
  | Except.ok (x, y) =>
    if x.isEmpty then Except.error FlatSurfError.emptyInput
    else
      match unstructured_xy2grid_xy_vectors x y min_nsteps with
      | Except.error e => Except.error e
      | Except.ok (xi, yi) =>
        Except.ok (x, y,
          grid_mask x y (mkvi2xi x (xi.getD 1 0 - xi.getD 0 0))
            s.nodes_on_border_paths xi yi,
          xi, yi)

/-- A concrete rotation argument: the identity (legitimate for meshes
already lying in the plane z = 0, whose average normal is (0,0,1)). -/
def idValign : Vec3 → Vec3 → Vec3 → Vec3 := fun _ _ v => v

/-- The unit square in the plane z = 0, with two valid face normals and
one border loop visiting its four corners. -/
def sqSurface : Surface :=
  { vertices := [(0,0,0), (1,0,0), (1,1,0), (0,1,0)],
    face_normals := [some (0,0,1), some (0,0,1)],
    nodes_on_border_paths := [[0,1,2,3]] }

/-! ### Helper lemmas -/

theorem getD_range_map {α : Type} (f : ℕ → α) (n k : ℕ) (d : α) (h : k < n) :
    ((List.range n).map f).getD k d = f k := by
  rw [List.getD_eq_getElem?_getD, List.getElem?_map, List.getElem?_range h]
  rfl

theorem ceil_eq_of (q : ℚ) (z : ℤ) (h1 : (z : ℚ) - 1 < q) (h2 : q ≤ (z : ℚ)) :
    ⌈q⌉ = z :=
  Int.ceil_eq_iff.mpr ⟨h1, h2⟩

theorem foldl_toggle_eq_parity (p : ℕ × ℕ → Bool) (l : List (ℕ × ℕ)) (b : Bool) :
    l.foldl (fun c e => if p e then !c else c) b
      = Bool.xor b (decide (Odd (l.filter p).length)) := by
  induction l generalizing b with
  | nil => simp [Nat.odd_iff]
  | cons a t ih =>
    rw [List.foldl_cons, List.filter_cons]
    by_cases hpa : p a = true
    · rw [if_pos hpa, if_pos hpa, ih (!b)]
      simp only [List.length_cons, Nat.odd_add_one, decide_not]
      cases b <;> cases h : decide (Odd (t.filter p).length) <;> simp [h]
    · rw [if_neg hpa, if_neg hpa, ih b]

theorem pnpolyCell_eq_parity (x y : List ℚ) (segs : List (ℕ × ℕ)) (xpos ypos : ℚ) :
    pnpolyCell x y segs xpos ypos
      = decide (Odd ((segs.filter (raycast_hit x y xpos ypos)).length)) := by
  simpa [pnpolyCell] using foldl_toggle_eq_parity (raycast_hit x y xpos ypos) segs false

theorem inColumnRange_eval (v : ℕ → ℚ) (e : ℕ × ℕ) (c : ℤ) (p q : ℤ)
    (hp : ⌈min (v e.1) (v e.2)⌉ = p) (hq : ⌈max (v e.1) (v e.2)⌉ = q) :
    inColumnRange v e c = decide (p ≤ c ∧ c < q) := by
  simp [inColumnRange, hp, hq]

theorem steps_arith (a b : ℚ) (N : ℕ) (ha : 0 < a) (hab : a ≤ b) (hN : 2 ≤ N) :
    1 + ⌈a / (min a b / ((N : ℚ) - 1))⌉ = (N : ℤ) ∧
      (N : ℤ) ≤ 1 + ⌈b / (min a b / ((N : ℚ) - 1))⌉ := by
  have hN1 : (0 : ℚ) < (N : ℚ) - 1 := by
    have h2 : (2 : ℚ) ≤ (N : ℚ) := by exact_mod_cast hN
    linarith
  have hmin : min a b = a := min_eq_left hab
  have hcast : ((N : ℚ) - 1) = (((N : ℤ) - 1 : ℤ) : ℚ) := by push_cast; ring
  have hdiv : a / (min a b / ((N : ℚ) - 1)) = (N : ℚ) - 1 := by
    rw [hmin]; field_simp
  constructor
  · rw [hdiv, hcast, Int.ceil_intCast]; ring
  · have hle : (N : ℚ) - 1 ≤ b / (min a b / ((N : ℚ) - 1)) := by
      rw [hmin, div_div_eq_mul_div, le_div_iff₀ ha]
      nlinarith
    have hc := Int.ceil_mono hle
    have hLHS : ⌈(N : ℚ) - 1⌉ = (N : ℤ) - 1 := by rw [hcast, Int.ceil_intCast]
    rw [hLHS] at hc
    omega

theorem unstructured_ok (x y : List ℚ) (N : ℕ)
    (hlen : x.length = y.length) (hx : 0 < listMax x - listMin x) :
    unstructured_xy2grid_xy_vectors x y N =
      Except.ok (axisVec (xstepsOf x y N) (gridDelta x y N) (listMin x),
                 axisVec (ystepsOf x y N) (gridDelta x y N) (listMin y)) := by
  have hxne : x ≠ [] := by
    intro h
    rw [h] at hx
    simp [listMax, listMin] at hx
  unfold unstructured_xy2grid_xy_vectors
  rw [if_neg (by simp [hlen]), if_neg (by simp [hxne])]

theorem axisVec_length (s : ℤ) (δ m : ℚ) : (axisVec s δ m).length = s.toNat := by
  simp [axisVec]

theorem axisVec_spacing (s : ℤ) (δ m : ℚ) (k : ℕ)
    (h : k + 1 < (axisVec s δ m).length) :
    (axisVec s δ m).getD (k + 1) 0 - (axisVec s δ m).getD k 0 = δ := by
  rw [axisVec_length] at h
  rw [axisVec, getD_range_map _ _ _ _ h, getD_range_map _ _ _ _ (by omega)]
  push_cast
  ring

theorem axisVec_mem_gt (s : ℤ) (δ m : ℚ) (hδ : 0 < δ) :
    ∀ v ∈ axisVec s δ m, m < v := by
  intro v hv
  rw [axisVec] at hv
  obtain ⟨k, -, rfl⟩ := List.mem_map.mp hv
  have hpos : (0 : ℚ) < ((k : ℚ) + 1/2) * δ := by positivity
  linarith

theorem axisVec_last_gt (a m δ : ℚ) (hδ : 0 < δ) (ha : 0 < a) :
    a + m < (axisVec (1 + ⌈a / δ⌉) δ m).getD
      ((axisVec (1 + ⌈a / δ⌉) δ m).length - 1) 0 := by
  have hc0 : 0 < ⌈a / δ⌉ := Int.ceil_pos.mpr (div_pos ha hδ)
  have hlt : (1 + ⌈a / δ⌉).toNat - 1 < (1 + ⌈a / δ⌉).toNat := by omega
  rw [axisVec_length, axisVec, getD_range_map _ _ _ _ hlt]
  have hcast : (((1 + ⌈a / δ⌉).toNat - 1 : ℕ) : ℚ) = (⌈a / δ⌉ : ℚ) := by
    have h1 : (1 + ⌈a / δ⌉).toNat - 1 = ⌈a / δ⌉.toNat := by omega
    rw [h1]
    exact_mod_cast Int.toNat_of_nonneg (le_of_lt hc0)
  rw [hcast]
  have hle : a / δ ≤ (⌈a / δ⌉ : ℚ) := Int.le_ceil _
  have hcan : a / δ * δ = a := div_mul_cancel₀ a (ne_of_gt hδ)
  nlinarith

theorem gridDelta_pos (x y : List ℚ) (N : ℕ)
    (hx : 0 < listMax x - listMin x) (hy : 0 < listMax y - listMin y)
    (hN : 2 ≤ N) : 0 < gridDelta x y N := by
  have hN1 : (0 : ℚ) < (N : ℚ) - 1 := by
    have h2 : (2 : ℚ) ≤ (N : ℚ) := by exact_mod_cast hN
    linarith
  exact div_pos (lt_min hx hy) hN1

theorem grid_lengths (x y : List ℚ) (N : ℕ)
    (hx : 0 < listMax x - listMin x) (hy : 0 < listMax y - listMin y)
    (hN : 2 ≤ N) :
    min (xstepsOf x y N).toNat (ystepsOf x y N).toNat = N ∧
      N ≤ (xstepsOf x y N).toNat ∧ N ≤ (ystepsOf x y N).toNat := by
  rcases le_total (listMax x - listMin x) (listMax y - listMin y) with hab | hba
  · obtain ⟨h1, h2⟩ := steps_arith _ _ N hx hab hN
    have hxs : xstepsOf x y N = (N : ℤ) := by rw [xstepsOf, gridDelta]; exact h1
    have hys : (N : ℤ) ≤ ystepsOf x y N := by rw [ystepsOf, gridDelta]; exact h2
    refine ⟨?_, by omega, by omega⟩
    omega
  · obtain ⟨h1, h2⟩ := steps_arith _ _ N hy hba hN
    rw [min_comm (listMax y - listMin y) (listMax x - listMin x)] at h1 h2
    have hys : ystepsOf x y N = (N : ℤ) := by rw [ystepsOf, gridDelta]; exact h1
    have hxs : (N : ℤ) ≤ xstepsOf x y N := by rw [xstepsOf, gridDelta]; exact h2
    refine ⟨?_, by omega, by omega⟩
    omega

/-! ### Claim theorems -/

theorem listMin01 : listMin [0, 1] = 0 := by
  simp [listMin]

theorem listMax01 : listMax [0, 1] = 1 := by
  simp [listMax]

theorem gridDelta01 : gridDelta [0, 1] [0, 1] 2 = 1 := by
  rw [gridDelta, listMin01, listMax01]
  norm_num

theorem xsteps01 : xstepsOf [0, 1] [0, 1] 2 = 2 := by
  rw [xstepsOf, gridDelta01, listMin01, listMax01]
  norm_num [Int.ceil_one]

theorem ysteps01 : ystepsOf [0, 1] [0, 1] 2 = 2 := by
  rw [ystepsOf, gridDelta01, listMin01, listMax01]
  norm_num [Int.ceil_one]

theorem axisVec21 : axisVec 2 1 0 = [1/2, 3/2] := by
  simp [axisVec, List.range_succ]
  norm_num

theorem unstructured01 :
    unstructured_xy2grid_xy_vectors [0, 1] [0, 1] 2
      = Except.ok ([1/2, 3/2], [1/2, 3/2]) := by
  rw [unstructured_ok [0, 1] [0, 1] 2 rfl (by rw [listMax01, listMin01]; norm_num)]
  rw [xsteps01, ysteps01, gridDelta01, listMin01, axisVec21]

/-- C2: for equal-length coordinate lists with positive x- and y-range
and `min_nsteps ≥ 2`, the grid axes are produced, the shorter axis has
exactly `min_nsteps` entries, and both axes are uniformly spaced with
`delta = min(xmax - xmin, ymax - ymin) / (min_nsteps - 1)`. -/
theorem unstructured_grid_sizing (x y : List ℚ) (N : ℕ)
    (hlen : x.length = y.length)
    (hx : 0 < listMax x - listMin x) (hy : 0 < listMax y - listMin y)
    (hN : 2 ≤ N) :
    ∃ xi yi, unstructured_xy2grid_xy_vectors x y N = Except.ok (xi, yi) ∧
      min xi.length yi.length = N ∧
      (∀ k, k + 1 < xi.length → xi.getD (k + 1) 0 - xi.getD k 0
        = min (listMax x - listMin x) (listMax y - listMin y) / ((N : ℚ) - 1)) ∧
      (∀ k, k + 1 < yi.length → yi.getD (k + 1) 0 - yi.getD k 0
        = min (listMax x - listMin x) (listMax y - listMin y) / ((N : ℚ) - 1)) := by
  obtain ⟨hmin, -, -⟩ := grid_lengths x y N hx hy hN
  refine ⟨_, _, unstructured_ok x y N hlen hx, ?_, ?_, ?_⟩
  · rw [axisVec_length, axisVec_length]
    exact hmin
  · intro k hk
    rw [axisVec_spacing _ _ _ _ hk, gridDelta]
  · intro k hk
    rw [axisVec_spacing _ _ _ _ hk, gridDelta]

theorem unstructured_grid_sizing_witness :
    ∃ xi yi, unstructured_xy2grid_xy_vectors [0, 1] [0, 1] 2 = Except.ok (xi, yi) ∧
      min xi.length yi.length = 2 ∧
      (∀ k, k + 1 < xi.length → xi.getD (k + 1) 0 - xi.getD k 0
        = min (listMax [0, 1] - listMin [0, 1]) (listMax [0, 1] - listMin [0, 1])
            / (((2 : ℕ) : ℚ) - 1)) ∧
      (∀ k, k + 1 < yi.length → yi.getD (k + 1) 0 - yi.getD k 0
        = min (listMax [0, 1] - listMin [0, 1]) (listMax [0, 1] - listMin [0, 1])
            / (((2 : ℕ) : ℚ) - 1)) :=
  unstructured_grid_sizing [0, 1] [0, 1] 2 rfl
    (by rw [listMax01, listMin01]; norm_num)
    (by rw [listMax01, listMin01]; norm_num) (by norm_num)

/-- C10: under the same hypotheses as C2, both axes meet the minimum:
each has at least `min_nsteps` entries. -/
theorem unstructured_min_length_ge (x y : List ℚ) (N : ℕ)
    (hlen : x.length = y.length)
    (hx : 0 < listMax x - listMin x) (hy : 0 < listMax y - listMin y)
    (hN : 2 ≤ N) :
    ∃ xi yi, unstructured_xy2grid_xy_vectors x y N = Except.ok (xi, yi) ∧
      N ≤ xi.length ∧ N ≤ yi.length := by
  obtain ⟨-, h1, h2⟩ := grid_lengths x y N hx hy hN
  exact ⟨_, _, unstructured_ok x y N hlen hx,
    by rw [axisVec_length]; exact h1, by rw [axisVec_length]; exact h2⟩

theorem unstructured_min_length_ge_witness :
    ∃ xi yi, unstructured_xy2grid_xy_vectors [0, 1] [0, 1] 2 = Except.ok (xi, yi) ∧
      2 ≤ xi.length ∧ 2 ≤ yi.length :=
  unstructured_min_length_ge [0, 1] [0, 1] 2 rfl
    (by rw [listMax01, listMin01]; norm_num)
    (by rw [listMax01, listMin01]; norm_num) (by norm_num)

/-- C5 (amended): every axis value lies strictly above the corresponding
data minimum, but the largest axis value strictly exceeds the data
maximum (by at least half a cell) — the axis extrema are not strictly
inside the data range on the upper side. -/
theorem axisRange_bounds (x y : List ℚ) (N : ℕ)
    (hlen : x.length = y.length)
    (hx : 0 < listMax x - listMin x) (hy : 0 < listMax y - listMin y)
    (hN : 2 ≤ N) :
    ∃ xi yi, unstructured_xy2grid_xy_vectors x y N = Except.ok (xi, yi) ∧
      (∀ v ∈ xi, listMin x < v) ∧ (∀ v ∈ yi, listMin y < v) ∧
      listMax x < xi.getD (xi.length - 1) 0 ∧
      listMax y < yi.getD (yi.length - 1) 0 := by
  have hδ := gridDelta_pos x y N hx hy hN
  refine ⟨_, _, unstructured_ok x y N hlen hx,
    axisVec_mem_gt _ _ _ hδ, axisVec_mem_gt _ _ _ hδ, ?_, ?_⟩
  · have h := axisVec_last_gt (listMax x - listMin x) (listMin x)
      (gridDelta x y N) hδ hx
    rw [sub_add_cancel] at h
    exact h
  · have h := axisVec_last_gt (listMax y - listMin y) (listMin y)
      (gridDelta x y N) hδ hy
    rw [sub_add_cancel] at h
    exact h

theorem axisRange_bounds_witness :
    ∃ xi yi, unstructured_xy2grid_xy_vectors [0, 1] [0, 1] 2 = Except.ok (xi, yi) ∧
      (∀ v ∈ xi, listMin [0, 1] < v) ∧ (∀ v ∈ yi, listMin [0, 1] < v) ∧
      listMax [0, 1] < xi.getD (xi.length - 1) 0 ∧
      listMax [0, 1] < yi.getD (yi.length - 1) 0 :=
  axisRange_bounds [0, 1] [0, 1] 2 rfl
    (by rw [listMax01, listMin01]; norm_num)
    (by rw [listMax01, listMin01]; norm_num) (by norm_num)

/-- C5 (counterexample): for `x = y = [0, 1]` and `min_nsteps = 2` the
returned x-axis is `[1/2, 3/2]`, and its value `3/2` does not lie
strictly inside `(xmin, xmax) = (0, 1)` — it is not below the data
maximum, contradicting the claim that axis extrema stay strictly inside
the data bounds. -/
theorem axisRange_spec_cex :
    unstructured_xy2grid_xy_vectors [0, 1] [0, 1] 2
        = Except.ok ([1/2, 3/2], [1/2, 3/2]) ∧
      (3 : ℚ)/2 ∈ ([1/2, 3/2] : List ℚ) ∧
      ¬ ((3 : ℚ)/2 < listMax [0, 1]) := by
  refine ⟨unstructured01, by norm_num, ?_⟩
  rw [listMax01]
  norm_num

/-- C8: `unstructured_xy2grid_xy_vectors` raises the shape-mismatch error
if and only if the two coordinate sequences have unequal lengths.  The
check is the first statement of the function, so no grid quantity is
computed first: in particular two inputs of unequal length yield the
shape-mismatch error even when both are degenerate in other ways. -/
theorem unstructured_shape_mismatch_iff (x y : List ℚ) (min_nsteps : ℕ) :
    unstructured_xy2grid_xy_vectors x y min_nsteps
        = Except.error FlatSurfError.shapeMismatch ↔ x.length ≠ y.length := by
  unfold unstructured_xy2grid_xy_vectors
  by_cases h : x.length = y.length
  · simp only [h, ne_eq, not_true_eq_false, if_false, ite_not]
    split <;> simp [h]
  · simp [h]

/-- C9: `flat_surface2grid_mask` is deterministic — two calls on equal
inputs (same rotation collaborator, mesh data, step count and tolerance)
return equal `(x, y, mask, xi, yi)` tuples.  The embedding is a pure
function of its arguments, which is the formal content of the source
carrying no state between calls. -/
theorem flat_surface2grid_mask_deterministic
    (valign₁ valign₂ : Vec3 → Vec3 → Vec3 → Vec3) (s₁ s₂ : Surface)
    (n₁ n₂ : ℕ) (d₁ d₂ : ℚ)
    (hv : valign₁ = valign₂) (hs : s₁ = s₂) (hn : n₁ = n₂) (hd : d₁ = d₂) :
    flat_surface2grid_mask valign₁ s₁ n₁ d₁
      = flat_surface2grid_mask valign₂ s₂ n₂ d₂ := by
  subst hv; subst hs; subst hn; subst hd; rfl

theorem flat_surface2grid_mask_deterministic_witness :
    flat_surface2grid_mask idValign sqSurface 2 0
      = flat_surface2grid_mask idValign sqSurface 2 0 :=
  flat_surface2grid_mask_deterministic idValign idValign sqSurface sqSurface
    2 2 0 0 rfl rfl rfl rfl

/-- C6 (code bug evidence): on a mesh whose single face normal has an
undefined component — so no valid face normal exists — `flat_surface2xy`
does not raise: the deformation test compares against an empty list of
valid normals and passes vacuously, and the function returns projected
coordinates (NaN-garbage in the source, junk values here) instead of the
FlatnessError the specification requires. -/
theorem flat_surface2xy_no_valid_normals_ok :
    flat_surface2xy idValign ⟨[(0, 0, 0)], [none], []⟩ 0
      = Except.ok ([0], [0]) := by
  simp [flat_surface2xy, validNormals, idValign]

theorem sum_map_const (l : List Vec3) (f : Vec3 → ℚ) (c : ℚ)
    (h : ∀ a ∈ l, f a = c) : (l.map f).sum = (l.length : ℚ) * c := by
  induction l with
  | nil => simp
  | cons a t ih =>
    rw [List.map_cons, List.sum_cons, h a (List.mem_cons_self a t),
      ih (fun b hb => h b (List.mem_cons_of_mem a hb))]
    push_cast [List.length_cons]
    ring

theorem nanmean_of_const (fns : List (Option Vec3)) (n0 : Vec3)
    (hne : validNormals fns ≠ [])
    (hall : ∀ n ∈ validNormals fns, n = n0) :
    nanmean_face_normal fns = n0 := by
  have hlen : (((validNormals fns).length : ℕ) : ℚ) ≠ 0 := by
    have : (validNormals fns).length ≠ 0 := by
      simpa [List.length_eq_zero] using hne
    exact_mod_cast this
  have h1 := sum_map_const (validNormals fns) (fun n => n.1) n0.1
    (fun a ha => by rw [hall a ha])
  have h2 := sum_map_const (validNormals fns) (fun n => n.2.1) n0.2.1
    (fun a ha => by rw [hall a ha])
  have h3 := sum_map_const (validNormals fns) (fun n => n.2.2) n0.2.2
    (fun a ha => by rw [hall a ha])
  rw [nanmean_face_normal]
  refine Prod.ext ?_ (Prod.ext ?_ ?_)
  · simp only [h1]
    exact mul_div_cancel_left₀ n0.1 hlen
  · simp only [h2]
    exact mul_div_cancel_left₀ n0.2.1 hlen
  · simp only [h3]
    exact mul_div_cancel_left₀ n0.2.2 hlen

/-- C3: `flat_surface2xy` raises the flatness error iff some face normal
with no undefined component has deformation strictly greater than
`max_deformation`; and a mesh whose valid face normals are all equal to
one unit vector succeeds even at `max_deformation = 0` (face normals are
unit vectors, so the self-dot-product-one hypothesis encodes exactly
that). -/
theorem flat_surface2xy_flatness_iff (valign : Vec3 → Vec3 → Vec3 → Vec3)
    (s : Surface) (d : ℚ) :
    (flat_surface2xy valign s d = Except.error FlatSurfError.flatness ↔
      ∃ n ∈ validNormals s.face_normals,
        d < deformationOf (nanmean_face_normal s.face_normals) n)
    ∧ (∀ n0 : Vec3, dot3 n0 n0 = 1 →
        (∀ n ∈ validNormals s.face_normals, n = n0) →
        ∃ xy, flat_surface2xy valign s 0 = Except.ok xy) := by
  constructor
  · constructor
    · intro herr
      unfold flat_surface2xy at herr
      by_cases hany : (validNormals s.face_normals).any
          (fun n => decide
            (d < deformationOf (nanmean_face_normal s.face_normals) n)) = true
      · obtain ⟨n, hn, hd⟩ := List.any_eq_true.mp hany
        exact ⟨n, hn, of_decide_eq_true hd⟩
      · rw [if_neg hany] at herr
        exact absurd herr (by simp)
    · rintro ⟨n, hn, hd⟩
      unfold flat_surface2xy
      rw [if_pos (List.any_eq_true.mpr ⟨n, hn, decide_eq_true hd⟩)]
  · intro n0 hunit hall
    unfold flat_surface2xy
    rw [if_neg ?_]
    · exact ⟨_, rfl⟩
    · intro hany
      obtain ⟨n, hn, hd⟩ := List.any_eq_true.mp hany
      have hne : validNormals s.face_normals ≠ [] := by
        intro hnil
        rw [hnil] at hn
        exact absurd hn (List.not_mem_nil n)
      have havg := nanmean_of_const s.face_normals n0 hne hall
      rw [havg, hall n hn] at hd
      have hdef : deformationOf n0 n0 = 0 := by
        rw [deformationOf, hunit]
        norm_num
      rw [hdef] at hd
      exact absurd (of_decide_eq_true hd) (lt_irrefl 0)

theorem flat_surface2xy_flatness_iff_witness :
    dot3 ((0 : ℚ), (0 : ℚ), (1 : ℚ)) ((0 : ℚ), (0 : ℚ), (1 : ℚ)) = 1 ∧
      ∃ xy, flat_surface2xy idValign sqSurface 0 = Except.ok xy :=
  ⟨by norm_num [dot3],
   (flat_surface2xy_flatness_iff idValign sqSurface 0).2 ((0 : ℚ), (0 : ℚ), (1 : ℚ))
     (by norm_num [dot3])
     (by
       intro n hn
       have hvn : validNormals sqSurface.face_normals
           = [((0 : ℚ), (0 : ℚ), (1 : ℚ)), ((0 : ℚ), (0 : ℚ), (1 : ℚ))] := rfl
       rw [hvn] at hn
       rcases List.mem_cons.mp hn with h | h
       · exact h
       · simpa using h)⟩

/-- C4 (amended): every consecutive border pair `(i, j)` is registered
under exactly the integer columns `c` in the closed-open range
`[⌈p⌉, ⌈q⌉)`, where `p = min(vi2xi[i], vi2xi[j])` and `q = max(...)` —
not the open-closed range `(⌈p⌉, ⌈q⌉]` stated by the specification. -/
theorem columnRegistration_iff (v : ℕ → ℚ) (pths : List (List ℕ)) (e : ℕ × ℕ)
    (he : e ∈ allPathPairs pths) (c : ℤ) :
    e ∈ segmentsAt v pths c ↔
      (⌈min (v e.1) (v e.2)⌉ ≤ c ∧ c < ⌈max (v e.1) (v e.2)⌉) := by
  simp [segmentsAt, List.mem_filter, he, inColumnRange]

theorem columnRegistration_iff_witness :
    (((0, 1) : ℕ × ℕ) ∈ allPathPairs [[0, 1]]) ∧
      ((((0, 1) : ℕ × ℕ) ∈
          segmentsAt (fun i => ([0, 2] : List ℚ).getD i 0) [[0, 1]] 0) ↔
        (⌈min (([0, 2] : List ℚ).getD 0 0) (([0, 2] : List ℚ).getD 1 0)⌉ ≤ (0 : ℤ) ∧
         (0 : ℤ) < ⌈max (([0, 2] : List ℚ).getD 0 0) (([0, 2] : List ℚ).getD 1 0)⌉)) :=
  ⟨by decide,
   columnRegistration_iff (fun i => ([0, 2] : List ℚ).getD i 0) [[0, 1]] (0, 1)
     (by decide) 0⟩

/-- C4 (counterexample): for the border pair `(0, 1)` with
`vi2xi = [0, 2]` we have `p = 0`, `q = 2`, and the specification's
open-closed range `(⌈p⌉, ⌈q⌉] = (0, 2]` contains column 2 — yet the code
does not register the edge there (it registers columns 0 and 1). -/
theorem columnRegistration_spec_cex :
    ¬ ((((0, 1) : ℕ × ℕ) ∈
          segmentsAt (fun i => ([0, 2] : List ℚ).getD i 0) [[0, 1]] 2) ↔
        (⌈min (([0, 2] : List ℚ).getD 0 0) (([0, 2] : List ℚ).getD 1 0)⌉ < (2 : ℤ) ∧
         (2 : ℤ) ≤ ⌈max (([0, 2] : List ℚ).getD 0 0) (([0, 2] : List ℚ).getD 1 0)⌉)) := by
  have hmin : min (([0, 2] : List ℚ).getD 0 0) (([0, 2] : List ℚ).getD 1 0) = 0 :=
    min_eq_left (by norm_num)
  have hmax : max (([0, 2] : List ℚ).getD 0 0) (([0, 2] : List ℚ).getD 1 0) = 2 :=
    max_eq_right (by norm_num)
  have hcmin : ⌈min (([0, 2] : List ℚ).getD 0 0) (([0, 2] : List ℚ).getD 1 0)⌉ = 0 := by
    rw [hmin]; exact Int.ceil_zero
  have hcmax : ⌈max (([0, 2] : List ℚ).getD 0 0) (([0, 2] : List ℚ).getD 1 0)⌉ = 2 := by
    rw [hmax]; exact ceil_eq_of 2 2 (by norm_num) (by norm_num)
  have hreg : inColumnRange (fun i => ([0, 2] : List ℚ).getD i 0) (0, 1) 2 = false := by
    rw [inColumnRange_eval (fun i => ([0, 2] : List ℚ).getD i 0) (0, 1) 2 0 2 hcmin hcmax]
    decide
  have hreg' : inColumnRange (fun i => ([0, 2] : List ℚ).getD i 0) (1, 0) 2 = false := by
    rw [inColumnRange_eval (fun i => ([0, 2] : List ℚ).getD i 0) (1, 0) 2 0 2
      (by rw [min_comm]; exact hcmin) (by rw [max_comm]; exact hcmax)]
    decide
  have hpairs : allPathPairs [[0, 1]] = [(0, 1), (1, 0)] := rfl
  have hseg : segmentsAt (fun i => ([0, 2] : List ℚ).getD i 0) [[0, 1]] 2 = [] := by
    simp only [segmentsAt, hpairs, List.filter_cons, List.filter_nil, hreg, hreg']
    simp
  intro hiff
  have hmem := hiff.2 (by rw [hcmin, hcmax]; exact ⟨by norm_num, by norm_num⟩)
  rw [hseg] at hmem
  simp at hmem

/-- C7: in the rasterization, a border edge whose projected x-coordinates
are equal is registered under no column (its virtual-column span is
empty), and consequently the ray-cast divisor `x[j] - x[i]` is nonzero
for every edge that reaches the division in the parity loop. -/
theorem no_vertical_edge_registered (x : List ℚ) (δ : ℚ)
    (pths : List (List ℕ)) :
    (∀ e : ℕ × ℕ, x.getD e.1 0 = x.getD e.2 0 →
      ∀ c : ℤ, e ∉ segmentsAt (mkvi2xi x δ) pths c)
    ∧ (∀ c : ℤ, ∀ e ∈ segmentsAt (mkvi2xi x δ) pths c,
        x.getD e.2 0 - x.getD e.1 0 ≠ 0) := by
  have key : ∀ (e : ℕ × ℕ) (c : ℤ), e ∈ segmentsAt (mkvi2xi x δ) pths c →
      x.getD e.1 0 ≠ x.getD e.2 0 := by
    intro e c hmem heq
    have hv : mkvi2xi x δ e.1 = mkvi2xi x δ e.2 := by
      unfold mkvi2xi
      rw [heq]
    have hcol : inColumnRange (mkvi2xi x δ) e c = true :=
      (List.mem_filter.mp hmem).2
    rw [inColumnRange] at hcol
    have hc := of_decide_eq_true hcol
    rw [hv] at hc
    simp only [min_self, max_self] at hc
    omega
  refine ⟨fun e heq c hmem => key e c hmem heq, fun c e hmem h0 => ?_⟩
  exact key e c hmem (sub_eq_zero.mp h0).symm

/-! ### Concrete evaluation of the unit-square scenario -/

theorem sq_xmin : listMin [0, 1, 1, 0] = 0 := by
  simp [listMin]

theorem sq_xmax : listMax [0, 1, 1, 0] = 1 := by
  simp [listMax]

theorem sq_ymin : listMin [0, 0, 1, 1] = 0 := by
  simp [listMin]

theorem sq_ymax : listMax [0, 0, 1, 1] = 1 := by
  simp [listMax]

theorem sq_delta : gridDelta [0, 1, 1, 0] [0, 0, 1, 1] 2 = 1 := by
  rw [gridDelta, sq_xmin, sq_xmax, sq_ymin, sq_ymax]
  norm_num

theorem sq_xsteps : xstepsOf [0, 1, 1, 0] [0, 0, 1, 1] 2 = 2 := by
  rw [xstepsOf, sq_delta, sq_xmin, sq_xmax]
  norm_num [Int.ceil_one]

theorem sq_ysteps : ystepsOf [0, 1, 1, 0] [0, 0, 1, 1] 2 = 2 := by
  rw [ystepsOf, sq_delta, sq_ymin, sq_ymax]
  norm_num [Int.ceil_one]

theorem sq_unstructured :
    unstructured_xy2grid_xy_vectors [0, 1, 1, 0] [0, 0, 1, 1] 2
      = Except.ok ([1/2, 3/2], [1/2, 3/2]) := by
  rw [unstructured_ok [0, 1, 1, 0] [0, 0, 1, 1] 2 rfl
    (by rw [sq_xmax, sq_xmin]; norm_num)]
  rw [sq_xsteps, sq_ysteps, sq_delta, sq_xmin, sq_ymin, axisVec21]

theorem sq_validNormals :
    validNormals sqSurface.face_normals
      = [((0 : ℚ), (0 : ℚ), (1 : ℚ)), ((0 : ℚ), (0 : ℚ), (1 : ℚ))] := rfl

theorem sq_avg :
    nanmean_face_normal sqSurface.face_normals = ((0 : ℚ), (0 : ℚ), (1 : ℚ)) := by
  simp only [nanmean_face_normal, sq_validNormals]
  norm_num [Prod.ext_iff]

theorem sq_flat_surface2xy :
    flat_surface2xy idValign sqSurface 0 = Except.ok ([0, 1, 1, 0], [0, 0, 1, 1]) := by
  unfold flat_surface2xy
  rw [if_neg ?_]
  · rfl
  · intro hany
    rw [sq_validNormals, sq_avg] at hany
    simp [deformationOf, dot3] at hany

theorem sq_pairs : allPathPairs [[0, 1, 2, 3]] = [(0, 3), (1, 0), (2, 1), (3, 2)] := rfl

theorem sq_seg0 :
    segmentsAt (mkvi2xi [0, 1, 1, 0] 1) [[0, 1, 2, 3]] 0 = [(1, 0), (3, 2)] := by
  simp only [segmentsAt, sq_pairs, List.filter_cons, List.filter_nil]
  norm_num [inColumnRange, mkvi2xi, sq_xmin, List.getD_cons_zero,
    List.getD_cons_succ, min_def, max_def, Int.ceil_zero, Int.ceil_one]

theorem sq_seg1 :
    segmentsAt (mkvi2xi [0, 1, 1, 0] 1) [[0, 1, 2, 3]] 1 = [] := by
  simp only [segmentsAt, sq_pairs, List.filter_cons, List.filter_nil]
  norm_num [inColumnRange, mkvi2xi, sq_xmin, List.getD_cons_zero,
    List.getD_cons_succ, min_def, max_def, Int.ceil_zero, Int.ceil_one]

theorem sq_cell00 :
    pnpolyCell [0, 1, 1, 0] [0, 0, 1, 1] [(1, 0), (3, 2)] (1/2) (1/2) = true := by
  norm_num [pnpolyCell, raycast_hit, List.getD_cons_zero, List.getD_cons_succ]

theorem sq_cell01 :
    pnpolyCell [0, 1, 1, 0] [0, 0, 1, 1] [(1, 0), (3, 2)] (1/2) (3/2) = false := by
  norm_num [pnpolyCell, raycast_hit, List.getD_cons_zero, List.getD_cons_succ]

theorem sq_cell_empty (xpos ypos : ℚ) :
    pnpolyCell [0, 1, 1, 0] [0, 0, 1, 1] [] xpos ypos = false := rfl

theorem sq_mask :
    grid_mask [0, 1, 1, 0] [0, 0, 1, 1] (mkvi2xi [0, 1, 1, 0] 1) [[0, 1, 2, 3]]
        [1/2, 3/2] [1/2, 3/2]
      = [[true, false], [false, false]] := by
  rw [grid_mask]
  norm_num [List.range_succ, List.getD_cons_zero, List.getD_cons_succ,
    sq_seg0, sq_seg1, sq_cell00, sq_cell01, sq_cell_empty]

theorem sq_pipeline :
    flat_surface2grid_mask idValign sqSurface 2 0
      = Except.ok ([0, 1, 1, 0], [0, 0, 1, 1], [[true, false], [false, false]],
          [1/2, 3/2], [1/2, 3/2]) := by
  unfold flat_surface2grid_mask
  rw [sq_flat_surface2xy]
  norm_num [sq_unstructured, sq_mask, sqSurface, List.getD_cons_zero,
    List.getD_cons_succ]

/-- C1: for every grid cell `(r, c)` produced by `flat_surface2grid_mask`,
if column `c` has at least one registered edge then the mask bit at
`(r, c)` holds iff the number of registered edges `(i, j)` at column `c`
whose edge y-value at the ray position exceeds the test point
(`yi[r] < (y[j]-y[i])*(xi[c]-x[i])/(x[j]-x[i]) + y[i]`) is odd; and every
cell of a column with no registered edge is `False`. -/
theorem flat_surface2grid_mask_parity (valign : Vec3 → Vec3 → Vec3 → Vec3)
    (s : Surface) (N : ℕ) (d : ℚ)
    (x y : List ℚ) (msk : List (List Bool)) (xi yi : List ℚ)
    (h : flat_surface2grid_mask valign s N d = Except.ok (x, y, msk, xi, yi))
    (r c : ℕ) (hr : r < yi.length) (hc : c < xi.length) :
    (segmentsAt (mkvi2xi x (xi.getD 1 0 - xi.getD 0 0))
        s.nodes_on_border_paths (c : ℤ) ≠ [] →
      ((msk.getD r []).getD c false = true ↔
        Odd (((segmentsAt (mkvi2xi x (xi.getD 1 0 - xi.getD 0 0))
            s.nodes_on_border_paths (c : ℤ)).filter
              (raycast_hit x y (xi.getD c 0) (yi.getD r 0))).length)))
    ∧ (segmentsAt (mkvi2xi x (xi.getD 1 0 - xi.getD 0 0))
        s.nodes_on_border_paths (c : ℤ) = [] →
      (msk.getD r []).getD c false = false) := by
  unfold flat_surface2grid_mask at h
  split at h
  · simp at h
  · rename_i x0 y0 heq0
    split at h
    · simp at h
    · split at h
      · simp at h
      · rename_i xi0 yi0 heq1
        simp only [Except.ok.injEq, Prod.mk.injEq] at h
        obtain ⟨hx, hy, hm, hxi, hyi⟩ := h
        have hm' : grid_mask x y (mkvi2xi x (xi.getD 1 0 - xi.getD 0 0))
            s.nodes_on_border_paths xi yi = msk := by
          rw [← hx, ← hy, ← hxi, ← hyi]
          exact hm
        have hcell : (msk.getD r []).getD c false
            = pnpolyCell x y
                (segmentsAt (mkvi2xi x (xi.getD 1 0 - xi.getD 0 0))
                  s.nodes_on_border_paths (c : ℤ))
                (xi.getD c 0) (yi.getD r 0) := by
          rw [← hm', grid_mask, getD_range_map _ _ _ _ hr,
            getD_range_map _ _ _ _ hc]
        constructor
        · intro _
          rw [hcell, pnpolyCell_eq_parity]
          simp only [decide_eq_true_eq]
        · intro hempty
          rw [hcell, hempty]
          rfl

theorem flat_surface2grid_mask_parity_witness :
    (([[true, false], [false, false]] : List (List Bool)).getD 0 []).getD 0 false
        = true ↔
      Odd (((segmentsAt
          (mkvi2xi [0, 1, 1, 0]
            (([1/2, 3/2] : List ℚ).getD 1 0 - ([1/2, 3/2] : List ℚ).getD 0 0))
          sqSurface.nodes_on_border_paths ((0 : ℕ) : ℤ)).filter
            (raycast_hit [0, 1, 1, 0] [0, 0, 1, 1]
              (([1/2, 3/2] : List ℚ).getD 0 0)
              (([1/2, 3/2] : List ℚ).getD 0 0))).length) :=
  (flat_surface2grid_mask_parity idValign sqSurface 2 0 [0, 1, 1, 0] [0, 0, 1, 1]
    [[true, false], [false, false]] [1/2, 3/2] [1/2, 3/2] sq_pipeline 0 0
    (by norm_num) (by norm_num)).1
    (by
      have hδ : ([1/2, 3/2] : List ℚ).getD 1 0 - ([1/2, 3/2] : List ℚ).getD 0 0 = 1 := by
        norm_num [List.getD_cons_zero, List.getD_cons_succ]
      have hp : sqSurface.nodes_on_border_paths = [[0, 1, 2, 3]] := rfl
      rw [hδ, hp, Nat.cast_zero, sq_seg0]
      exact List.cons_ne_nil _ _)

theorem no_vertical_edge_registered_witness :
    (((0, 3) : ℕ × ℕ) ∉ segmentsAt (mkvi2xi [0, 1, 1, 0] 1) [[0, 1, 2, 3]] 0)
    ∧ ([0, 1, 1, 0] : List ℚ).getD 0 0 - ([0, 1, 1, 0] : List ℚ).getD 1 0 ≠ 0 :=
  ⟨(no_vertical_edge_registered [0, 1, 1, 0] 1 [[0, 1, 2, 3]]).1 (0, 3)
      (by norm_num [List.getD_cons_zero, List.getD_cons_succ]) 0,
   (no_vertical_edge_registered [0, 1, 1, 0] 1 [[0, 1, 2, 3]]).2 0 (1, 0)
      (by rw [sq_seg0]; exact List.mem_cons_self _ _)⟩

end FlatSurf
